import Mathlib

/-!
# Export orchestration, playable tracks and the numeric text control

A verification development over three parts of the editor:

* `src/export/Export.h` declares the export orchestrator `Exporter`, its
  `DownMixMode` enumeration and the registry item `ExporterItem`.  The bodies
  of its member functions live in `Export.cpp`, outside this development, so the
  operations are modelled from the specification (each such definition says
  so in its doc comment); the data model follows the header.
* `libraries/lib-playable-track/PlayableTrack.cpp`:
  `PlayableTrack::HandleXMLAttribute` and the setting `TracksBehaviorsSolo`.
* `src/widgets/NumericTextCtrl.cpp`: `NumericTextCtrl::UpdateAutoFocus`,
  `NumericTextCtrl::GetBox`, and `GetLocation` and `GetName` of the
  accessible object `NumericTextCtrlAx`.

Definitions come first, theorems afterwards.
-/

set_option autoImplicit false

/-! ## Part 1. Export: data model -/

/-- Values of the C++ type `double` as far as the ordering comparisons see
them: not-a-number, the two infinities and the finite values. -/
inductive Double where
  | nan
  | negInf
  | fin (q : ℚ)
  | posInf
  deriving DecidableEq

namespace Double

/-- The comparison `a < b` of two doubles. -/
def lt : Double → Double → Bool
  | nan, _ => false
  | _, nan => false
  | negInf, negInf => false
  | negInf, _ => true
  | posInf, _ => false
  | fin _, negInf => false
  | fin a, fin b => decide (a < b)
  | fin _, posInf => true

end Double

/-- The error kinds of the export core (section 7 of the specification, and
`RegistryClosed` of its section 5). -/
inductive ExportError where
  | InvalidPluginIndex
  | InvalidSubFormatIndex
  | InvalidRange
  | UnsupportedChannelMapping
  | InvalidState
  | DuplicateIdentifier
  | CyclicPlacement
  | PreferenceStale
  | RegistryClosed
  | InsufficientDiskSpace
  | PluginEncodeFailure (detail : String)
  | FilesystemFailure (detail : String)
  deriving DecidableEq, Repr

deriving instance DecidableEq for Except

/-- Non-fatal notices: conditions that are recovered internally and only
reported. -/
inductive Notice where
  | OverrideConflict
  | PreferenceStale
  | CyclicPlacement
  deriving DecidableEq, Repr

/-- The enumeration `Exporter::DownMixMode` of `Export.h`. -/
inductive DownMixMode where
  | None
  | Mono
  | Stereo
  | FormatDefined
  deriving DecidableEq, Repr

/-- Modelled from the spec: the allowed output channel counts of a
sub-format, declared in the absent `ExportPlugin.h`; the specification gives
them as "min/max or fixed". -/
inductive ChannelConstraint where
  | fixed (n : Nat)
  | range (lo hi : Nat)
  deriving DecidableEq, Repr

namespace ChannelConstraint

/-- Whether `n` output channels are among the declared allowed counts. -/
def allows : ChannelConstraint → Nat → Bool
  | fixed k, n => decide (n = k)
  | range lo hi, n => decide (lo ≤ n) && decide (n ≤ hi)

/-- The channel count the format fixes, when it allows exactly one count. -/
def fixedCount : ChannelConstraint → Option Nat
  | fixed k => some k
  | range lo hi => if lo = hi then some lo else none

/-- The count nearest to `n` that the constraint allows. -/
def clamp : ChannelConstraint → Nat → Nat
  | fixed k, _ => k
  | range lo hi, n => if n < lo then lo else if hi < n then hi else n

end ChannelConstraint

/-- Modelled from the spec: a sub-format of a plugin, declared in the absent
`ExportPlugin.h`; only its channel limits matter to the orchestrator. -/
structure SubFormat where
  description : String
  channels : ChannelConstraint
  deriving DecidableEq, Repr

/-- Modelled from the spec: a plugin instance (class `ExportPlugin` of the
absent `ExportPlugin.h`) as the orchestrator sees it: its canonical
extension and its declared sub-formats. -/
structure ExportPlugin where
  extension : String
  subFormats : List SubFormat
  deriving DecidableEq, Repr

/-- The type `Exporter::ExportPluginFactory` of `Export.h`:
`std::function< std::unique_ptr< ExportPlugin >() >`. -/
abbrev ExportPluginFactory := Unit → ExportPlugin

/-- The alias `ExportPluginArray` of `Export.h`: a vector of plugin instances. -/
abbrev ExportPluginArray := List ExportPlugin

/-- Modelled from the spec: the ordering part of a placement hint
(`Registry::OrderingHint` of the absent `Registry.h`). -/
inductive OrderingHint where
  | Unspecified
  | Before (anchor : String)
  | After (anchor : String)
  deriving DecidableEq, Repr

/-- Modelled from the spec: `Registry::Placement` of the absent `Registry.h`,
a path and an ordering hint; the default argument of the constructor of
`RegisteredExportPlugin` is the empty path with an unspecified hint. -/
structure Placement where
  path : String := ""
  hint : OrderingHint := OrderingHint.Unspecified
  deriving DecidableEq, Repr

/-- The struct `Exporter::ExporterItem` of `Export.h`: a `Registry::SingleItem`
(which carries the identifier) holding the factory in `mFactory`. -/
structure ExporterItem where
  name : String
  mFactory : ExportPluginFactory

/-- An entry of the registry: the item together with its placement hint. -/
structure RegisteredItem where
  item : ExporterItem
  placement : Placement

/-- Modelled from the spec: the process-wide plugin registry (the group
returned by `ExporterItem::Registry()`, whose class is in the absent
`Registry.h`): the registered entries in insertion order, and whether the
first `Resolve()` has closed it. -/
structure PluginRegistry where
  items : List RegisteredItem
  closed : Bool

/-- The process-wide state the registry operations act on: the registry and
every plugin instance constructed so far (latest first). -/
structure ProcessState where
  registry : PluginRegistry
  instances : List ExportPlugin

/-- Modelled from the spec: the routing matrix (class `MixerOptions::Downmix`,
alias `MixerSpec`, is only forward-declared in `Export.h`): for each output
channel the weight of every input channel. Weights are exact rationals. -/
abbrev MixerSpec := List (List ℚ)

/-- Modelled from the spec: what the sample-data collaborator says of one
track: its channel count, whether it is selected and whether it is muted. -/
structure TrackInfo where
  channels : Nat
  selected : Bool
  muted : Bool
  deriving DecidableEq, Repr

/-- Modelled from the spec: the external collaborators behind
`AudacityProject` (only forward-declared in `Export.h`) as one snapshot: the
tracks, the search for the first non-silent sample inside an interval
(`none` when the interval is entirely silent), the user's downmix override
and the default mode of the session configuration. -/
structure AudacityProject where
  tracks : List TrackInfo
  firstNonSilent : Double → Double → Option Double
  userOverride : Option DownMixMode
  defaultMode : DownMixMode

/-- Modelled from the spec: the states of the orchestrator's state machine
(section 4.3); `Export.h` has no field for it. -/
inductive SessionState where
  | Unconfigured
  | Configured
  | Running
  | Completed
  | Cancelled
  | Failed
  deriving DecidableEq, Repr

/-- The data members of class `Exporter` of `Export.h`, with the state of
the specification's state machine and the skip-leading-silence flag added
(the header has no member for either). -/
structure Exporter where
  mProject : AudacityProject
  mMixerSpec : Option MixerSpec := none
  mPlugins : ExportPluginArray
  mFilename : String := ""
  mActualName : String := ""
  mT0 : Double := Double.fin 0
  mT1 : Double := Double.fin 0
  mFormat : Int := -1
  mSubFormat : Int := -1
  mNumSelected : Int := 0
  mMono : Bool := false
  mNumMono : Nat := 0
  mChannels : Nat := 0
  mSelectedOnly : Bool := false
  skipLeadingSilence : Bool := false
  state : SessionState := SessionState.Unconfigured

/-! ## Part 1. Export: operations -/

namespace PluginRegistry

/-- Whether an entry with identifier `id` is registered. -/
def hasIdentifier (r : PluginRegistry) (id : String) : Bool :=
  r.items.any (fun entry => entry.item.name == id)

end PluginRegistry

/-- Modelled from the spec: the constructor of `Exporter::RegisteredExportPlugin`
(declared in `Export.h`, its body is in the absent `Export.cpp`), which is
`Register(descriptor)` of section 4.1: registration after the first
`Resolve()` fails with `RegistryClosed`, an identifier that already exists
fails with `DuplicateIdentifier`, otherwise an `ExporterItem` holding the
factory is inserted. The result is the outcome and the process state after
the attempt. -/
def RegisteredExportPlugin (p : ProcessState) (id : String)
    (factory : ExportPluginFactory) (placement : Placement) :
    Except ExportError Unit × ProcessState :=
  if p.registry.closed then
    (Except.error ExportError.RegistryClosed, p)
  else if p.registry.hasIdentifier id then
    (Except.error ExportError.DuplicateIdentifier, p)
  else
    (Except.ok (),
      { p with registry :=
          { p.registry with
            items := p.registry.items ++ [⟨⟨id, factory⟩, placement⟩] } })

/-- Modelled from the spec: `Instantiate(descriptor)` of section 4.1: invokes
the factory; the fresh instance is recorded in the process state. -/
def Instantiate (p : ProcessState) (d : ExporterItem) :
    ExportPlugin × ProcessState :=
  let inst := d.mFactory ()
  (inst, { p with instances := inst :: p.instances })

/-- The output channel count a downmix mode asks for by itself, given the
input channel count: `None` passes the input count through, `Mono` and
`Stereo` force 1 and 2, `FormatDefined` leaves the count to the format. -/
def DownMixMode.impliedChannels (inputChannelCount : Nat) :
    DownMixMode → Option Nat
  | DownMixMode.None => some inputChannelCount
  | DownMixMode.Mono => some 1
  | DownMixMode.Stereo => some 2
  | DownMixMode.FormatDefined => none

/-- Modelled from the spec: `DecideMode` of section 4.2 (the header declares
`Exporter::SetUseStereoOrMonoOutput`, whose body is in the absent `Export.cpp`).
With a user override: it is honoured unless it conflicts with a fixed
channel constraint of the format, in which case `FormatDefined` wins and a
conflict notice is reported. Without one: `FormatDefined` if the format
fixes the count, else `None` for a single input channel, else the default of
the session configuration. -/
def DecideMode (inputChannelCount : Nat) (selectedFormatConstraints : ChannelConstraint)
    (userOverride : Option DownMixMode) (defaultMode : DownMixMode) :
    DownMixMode × Option Notice :=
  match userOverride with
  | some mode =>
    match selectedFormatConstraints.fixedCount,
        mode.impliedChannels inputChannelCount with
    | some k, some n =>
      if n = k then (mode, none)
      else (DownMixMode.FormatDefined, some Notice.OverrideConflict)
    | _, _ => (mode, none)
  | none =>
    if selectedFormatConstraints.fixedCount.isSome then
      (DownMixMode.FormatDefined, none)
    else if inputChannelCount = 1 then (DownMixMode.None, none)
    else (defaultMode, none)

/-- Identity routing of `n` channels: output `o` takes input `o` at weight 1. -/
def identityMatrix (n : Nat) : MixerSpec :=
  (List.range n).map (fun o =>
    (List.range n).map (fun i => if i = o then (1 : ℚ) else 0))

/-- Modelled from the spec: `BuildMatrix` of section 4.2. It fails with
`UnsupportedChannelMapping` when the output count is not among the format's
allowed counts; equal counts give identity routing; a collapse to one or to
two outputs gives every input the same weight, one over the number of
inputs, in each output; the expansion of one input to two outputs duplicates
it at weight 1. The specification describes no other mapping, so any other
pair of counts is unsupported as well. -/
def BuildMatrix (allowed : ChannelConstraint)
    (inputChannelCount outputChannelCount : Nat) : Except ExportError MixerSpec :=
  if allowed.allows outputChannelCount = false then
    Except.error ExportError.UnsupportedChannelMapping
  else if outputChannelCount = inputChannelCount then
    Except.ok (identityMatrix inputChannelCount)
  else if outputChannelCount < inputChannelCount ∧
      (outputChannelCount = 1 ∨ outputChannelCount = 2) then
    Except.ok (List.replicate outputChannelCount
      (List.replicate inputChannelCount (1 / (inputChannelCount : ℚ))))
  else if inputChannelCount = 1 ∧ outputChannelCount = 2 then
    Except.ok [[1], [1]]
  else
    Except.error ExportError.UnsupportedChannelMapping

/-- The sum of the weights of one output channel. -/
def weightSum (row : List ℚ) : ℚ := row.sum

namespace Exporter

/-- The tracks an export takes: the selected ones when `mSelectedOnly` is
set, all of them otherwise. -/
def exportedTracks (e : Exporter) : List TrackInfo :=
  if e.mSelectedOnly then e.mProject.tracks.filter (fun t => t.selected)
  else e.mProject.tracks

/-- The input channel count used to decide the mode: fully muted tracks are
excluded. -/
def inputChannelCount (tracks : List TrackInfo) : Nat :=
  ((tracks.filter (fun t => !t.muted)).map (fun t => t.channels)).sum

/-- One output channel over all channels of the exported tracks: the
channels of a muted track get weight zero, the others take the weights of
`row` in order. -/
def spreadRow : List TrackInfo → List ℚ → List ℚ
  | [], _ => []
  | t :: ts, row =>
    if t.muted then List.replicate t.channels 0 ++ spreadRow ts row
    else row.take t.channels ++ spreadRow ts (row.drop t.channels)

/-- The plugin chosen by `mFormat`, when that index is in range of `mPlugins`
(`Exporter::GetPlugin()`). -/
def GetPlugin (e : Exporter) : Option ExportPlugin :=
  if e.mFormat < 0 then none else e.mPlugins.get? e.mFormat.toNat

/-- The channel constraint of the chosen sub-format of the chosen plugin. -/
def chosenConstraint (e : Exporter) : Option ChannelConstraint :=
  match e.GetPlugin with
  | none => none
  | some plugin =>
    if e.mSubFormat < 0 then none
    else (plugin.subFormats.get? e.mSubFormat.toNat).map (fun f => f.channels)

/-- The output channel count a mode resolves to. -/
def outputChannels (inputChannelCount : Nat) (c : ChannelConstraint) :
    DownMixMode → Nat
  | DownMixMode.None => inputChannelCount
  | DownMixMode.Mono => 1
  | DownMixMode.Stereo => 2
  | DownMixMode.FormatDefined => c.clamp inputChannelCount

/-- Modelled from the spec: `Exporter::CreateMixerSpec` (declared in
`Export.h`, its body is in the absent `Export.cpp`), section 4.3: computes the input
channel count from the exported tracks, asks the mixdown resolver for the
mode and the matrix, and stores the matrix and the resolved channel count.
Without a chosen plugin and sub-format the call is out of sequence. -/
def CreateMixerSpec (e : Exporter) : Except ExportError MixerSpec × Exporter :=
  match e.chosenConstraint with
  | none => (Except.error ExportError.InvalidState, e)
  | some c =>
    let tracks := e.exportedTracks
    let n := inputChannelCount tracks
    let mode := (DecideMode n c e.mProject.userOverride e.mProject.defaultMode).1
    let m := outputChannels n c mode
    match BuildMatrix c n m with
    | Except.error err => (Except.error err, e)
    | Except.ok matrix =>
      let spec := matrix.map (spreadRow tracks)
      (Except.ok spec, { e with mMixerSpec := some spec, mChannels := m })

end Exporter

/-! ## Part 2. Playable tracks -/

/-- The state of a `PlayableTrack`: the `AudioTrack` base sub-object (of any
type `A`, class `AudioTrack` being declared in the absent `PlayableTrack.h`)
and the two flags of the attached `MuteAndSolo`. -/
structure PlayableTrack (A : Type) where
  audio : A
  mMute : Bool := false
  mSolo : Bool := false

namespace PlayableTrack

variable {A V : Type}

/-- The member `PlayableTrack::DoSetMute`: stores the flag in the attachment. -/
def DoSetMute (t : PlayableTrack A) (value : Bool) : PlayableTrack A :=
  { t with mMute := value }

/-- The member `PlayableTrack::DoSetSolo`: stores the flag in the attachment. -/
def DoSetSolo (t : PlayableTrack A) (value : Bool) : PlayableTrack A :=
  { t with mSolo := value }

/-- The member `PlayableTrack::HandleXMLAttribute`. The attribute value view `V` with its
`TryGet(long &)` (here `TryGet`, yielding the integer on success) and the base
handler `AudioTrack::HandleXMLAttribute` (here `baseHandle`, acting on the
base sub-object) come from absent headers and are parameters.
The result is the returned flag and the track afterwards. -/
def HandleXMLAttribute (TryGet : V → Option Int)
    (baseHandle : String → V → A → Bool × A)
    (t : PlayableTrack A) (attr : String) (value : V) : Bool × PlayableTrack A :=
  match (if attr = "mute" then TryGet value else none) with
  | some nValue => (true, t.DoSetMute (nValue != 0))
  | none =>
    match (if attr = "solo" then TryGet value else none) with
    | some nValue => (true, t.DoSetSolo (nValue != 0))
    | none =>
      let r := baseHandle attr value t.audio
      (r.1, { t with audio := r.2 })

end PlayableTrack

/-- The enumeration `SoloBehavior` named by the initializer of
`TracksBehaviorsSolo`. -/
inductive SoloBehavior where
  | SoloBehaviorSimple
  | SoloBehaviorMulti
  | SoloBehaviorNone
  deriving DecidableEq, Repr

/-- One choice of an enumerated setting: the internal string stored in the
preferences and the user-visible message. -/
structure EnumValueSymbol where
  internal : String
  msgid : String
  deriving DecidableEq, Repr

/-- The `ByColumns` constructor of the symbol table: the user-visible
messages and the internal strings are given as two parallel columns. -/
def ByColumns (msgids internals : List String) : List EnumValueSymbol :=
  List.zipWith (fun msgid internal => ⟨internal, msgid⟩) msgids internals

/-- An `EnumSetting<Enum>` as its initializer gives it (the class template is
declared in the absent `Prefs.h`): the preference key, the symbol table, the
index of the default symbol, and the enumeration values parallel to the
symbols. -/
structure EnumSetting (Enum : Type) where
  key : String
  symbols : List EnumValueSymbol
  defaultSymbol : Nat
  values : List Enum

namespace EnumSetting

variable {Enum : Type}

/-- The default symbol: the entry of the symbol table at the default index. -/
def Default (s : EnumSetting Enum) : Option EnumValueSymbol :=
  s.symbols.get? s.defaultSymbol

/-- The default value: the entry of the value table at the default index. -/
def DefaultValue (s : EnumSetting Enum) : Option Enum :=
  s.values.get? s.defaultSymbol

end EnumSetting

/-- The global `TracksBehaviorsSolo` of `PlayableTrack.cpp`, field by field
as in its initializer. -/
def TracksBehaviorsSolo : EnumSetting SoloBehavior where
  key := "/GUI/Solo"
  symbols :=
    ByColumns ["Multi-track", "Simple", "None"] ["Multi", "Simple", "None"]
  defaultSymbol := 0
  values :=
    [SoloBehavior.SoloBehaviorMulti, SoloBehavior.SoloBehaviorSimple,
      SoloBehavior.SoloBehaviorNone]

/-! ## Part 3. The numeric text control -/

/-- A `DigitInfo` as constructed by `DigitInfo(i, j, pos)`: the field, the
index inside the field and the position of the digit in the value string. -/
structure DigitInfo where
  field : Int
  index : Int
  pos : Int
  deriving DecidableEq, Repr

/-- A point `wxPoint` of wxWidgets: integer coordinates. -/
structure wxPoint where
  x : Int := 0
  y : Int := 0
  deriving DecidableEq, Repr

/-- A rectangle `wxRect` of wxWidgets: position and size; the default
constructed rectangle `{}` has all four members zero. -/
structure wxRect where
  x : Int := 0
  y : Int := 0
  width : Int := 0
  height : Int := 0
  deriving DecidableEq, Repr

namespace wxRect

/-- The accessor `wxRect::GetPosition`: the top-left corner. -/
def GetPosition (r : wxRect) : wxPoint := ⟨r.x, r.y⟩

/-- The mutator `wxRect::SetPosition`: moves the top-left corner, the size
stays. -/
def SetPosition (r : wxRect) (p : wxPoint) : wxRect :=
  { r with x := p.x, y := p.y }

end wxRect

/-- The members of a `NumericField` (declared in the absent
`NumericConverter.h`) that the accessible object reads: the number of
digits, the label after the field and the current text of the field. -/
structure NumericField where
  digits : Int
  label : String
  str : String
  deriving DecidableEq, Repr

/-- The enumeration `NumericConverter::Type` (declared in the absent
`NumericConverter.h`); the code modelled here only compares with `TIME`. -/
inductive NumericConverterType where
  | TIME
  | ATIME
  | FREQUENCY
  | BANDWIDTH
  deriving DecidableEq, Repr

/-- The members of `NumericTextCtrl` that the modelled member functions
touch: those of `UpdateAutoFocus` first, then the digit boxes read by
`GetBox` and the members the accessible object reads. -/
structure NumericTextCtrl where
  mAutoPos : Bool
  mFocusedDigit : Int
  mDigits : List DigitInfo
  mValueString : List Char
  mBoxes : List wxRect := []
  mFields : List NumericField := []
  mType : NumericConverterType := NumericConverterType.TIME
  mFormatStringFraction : String := ""
  deriving DecidableEq, Repr

/-- What can go wrong when running a member function of the control: an
index outside a container, or a loop cut off by its fuel. -/
inductive Fault where
  | outOfRange
  | outOfFuel
  deriving DecidableEq, Repr

/-- The conversion `(int)n` of a `size_t` to a 32-bit `int`. -/
def toInt32 (n : Nat) : Int :=
  (((n + 2 ^ 31) % 2 ^ 32 : Nat) : Int) - 2 ^ 31

namespace NumericTextCtrl

/-- The element `xs[i]` of a container indexed by an `int`; nothing when the
index is outside it. -/
def at? {α : Type} (xs : List α) (i : Int) : Option α :=
  if i < 0 then none else xs.get? i.toNat

/-- The character `mValueString[mDigits[i].pos]` of digit `i`. -/
def digitChar (c : NumericTextCtrl) (i : Int) : Option Char :=
  match at? c.mDigits i with
  | none => none
  | some d => at? c.mValueString d.pos

/-- The `while` loop of `UpdateAutoFocus`, started with `mFocusedDigit` at
`focused`; every turn of the loop uses one unit of `fuel`. The result is the
final `mFocusedDigit`. -/
def UpdateAutoFocusLoop (c : NumericTextCtrl) : Nat → Int → Except Fault Int
  | fuel, focused =>
    if focused < toInt32 c.mDigits.length - 1 then
      match fuel with
      | 0 => Except.error Fault.outOfFuel
      | fuel + 1 =>
        match c.digitChar focused with
        | none => Except.error Fault.outOfRange
        | some dgt =>
          if dgt ≠ '0' then Except.ok focused
          else UpdateAutoFocusLoop c fuel (focused + 1)
    else Except.ok focused

/-- The member `NumericTextCtrl::UpdateAutoFocus`: nothing without auto-positioning;
otherwise the focus starts at digit 0 and moves right over each `'0'`,
stopping before the last digit. The loop gets as much fuel as there are
digits. -/
def UpdateAutoFocus (c : NumericTextCtrl) : Except Fault NumericTextCtrl :=
  if c.mAutoPos = false then Except.ok c
  else
    match UpdateAutoFocusLoop c c.mDigits.length 0 with
    | Except.error f => Except.error f
    | Except.ok focused => Except.ok { c with mFocusedDigit := focused }

/-- The member `NumericTextCtrl::GetBox`: the box of index `ii` when there is
one, the default constructed rectangle otherwise. -/
def GetBox (c : NumericTextCtrl) (ii : Nat) : wxRect :=
  if h : ii < c.mBoxes.length then c.mBoxes.get ⟨ii, h⟩ else {}

end NumericTextCtrl

/-- The status codes `wxAccStatus` of wxWidgets that this file returns. -/
inductive wxAccStatus where
  | wxACC_OK
  | wxACC_NOT_IMPLEMENTED
  | wxACC_NOT_SUPPORTED
  deriving DecidableEq, Repr

/-- The constant `wxACC_SELF` of wxWidgets: child id 0 stands for the object
itself ("childId is 0 (the action for this object) or > 0 (the action for a
child)"). -/
def wxACC_SELF : Int := 0

/-- What the calls of the accessible object into wxWidgets and into members
defined in absent headers report for its control `mCtrl`: the window
rectangle `GetRect()`, the conversions `ClientToScreen` of the control and of
its parent window (a control always has one), the window name `GetName()`
and label `GetLabel()`, the value string `GetString()`, the focused field
`GetFocusedField()`, the decimal point of the locale, and the translation of
a message. -/
structure ControlCalls where
  GetRect : wxRect
  ClientToScreen : wxPoint → wxPoint
  ParentClientToScreen : wxPoint → wxPoint
  GetName : String
  GetLabel : String
  GetString : String
  GetFocusedField : Int
  decimal : String
  Translation : String → String

/-- The data members of `NumericTextCtrlAx` (the pointer `mCtrl` is passed
separately), with the values its constructor gives them. -/
structure NumericTextCtrlAx where
  mLastField : Int := -1
  mLastDigit : Int := -1
  mCachedName : String := ""
  mLastCtrlString : String := ""
  deriving DecidableEq, Repr

namespace NumericTextCtrlAx

/-- The member `NumericTextCtrlAx::GetLocation`: the status and the rectangle
left in `rect` (which both branches overwrite). A positive `elementId` takes the box of digit
`elementId - 1` from `GetBox` (the index is not negative there, so its
conversion to `size_t` is the index itself) and moves it to screen
coordinates with the control's `ClientToScreen`; any other id takes the
rectangle of the control and moves it with the parent's `ClientToScreen`. -/
def GetLocation (calls : ControlCalls) (mCtrl : NumericTextCtrl)
    (elementId : Int) : wxAccStatus × wxRect :=
  if elementId ≠ wxACC_SELF ∧ elementId > 0 then
    let rect := mCtrl.GetBox (elementId - 1).toNat
    (wxAccStatus.wxACC_OK, rect.SetPosition (calls.ClientToScreen rect.GetPosition))
  else
    let rect := calls.GetRect
    (wxAccStatus.wxACC_OK,
      rect.SetPosition (calls.ParentClientToScreen rect.GetPosition))

/-- The element `xs[i]` of a container indexed by an `int`, as a read that
fails outside the container. -/
def readAt {α : Type} (xs : List α) (i : Int) : Except Fault α :=
  match NumericTextCtrl.at? xs i with
  | none => Except.error Fault.outOfRange
  | some x => Except.ok x

/-- A run of a member function that reads `mDigits`: its outcome, and the
indices at which `mDigits` was read, in the order of the reads. -/
structure DigitLog (α : Type) where
  outcome : Except Fault α
  reads : List Int

namespace DigitLog

/-- A step that reads nothing and yields `a`. -/
def ret {α : Type} (a : α) : DigitLog α := ⟨Except.ok a, []⟩

/-- A step running a read of another container: its outcome, no read of
`mDigits`. -/
def lift {α : Type} (r : Except Fault α) : DigitLog α := ⟨r, []⟩

/-- Sequencing: the second step runs only when the first one succeeded, and
its reads follow those of the first. -/
def andThen {α β : Type} (x : DigitLog α) (f : α → DigitLog β) : DigitLog β :=
  match x.outcome with
  | Except.error e => ⟨Except.error e, x.reads⟩
  | Except.ok a => ⟨(f a).outcome, x.reads ++ (f a).reads⟩

instance : Monad DigitLog where
  pure := ret
  bind := andThen

end DigitLog

/-- The read `mCtrl->mDigits[i]`: the element at index `i`, and the index `i`
entered in the log of reads. Every read of `mDigits` in `GetName` goes
through this function. -/
def readDigit (mCtrl : NumericTextCtrl) (i : Int) : DigitLog DigitInfo :=
  ⟨readAt mCtrl.mDigits i, [i]⟩

/-- The static function `GetFraction`: the new value of `label`. The message
is the format's `fraction`, or, when that is empty, "centiseconds" for two
digits and "milliseconds" for three; a non-empty message replaces the label
by its translation. The `wxASSERT( isTime )` does not change the result. -/
def GetFraction (Translation : String → String) (label : String)
    (fraction : String) (_isTime : Bool) (digits : Int) : String :=
  let tr :=
    if fraction = "" then
      if digits = 2 then "centiseconds"
      else if digits = 3 then "milliseconds"
      else fraction
    else fraction
  if tr ≠ "" then Translation tr else label

/-- The member `NumericTextCtrlAx::GetName`. The arguments are the calls of
the control, the control, the accessible object, the string `*name` as the
caller passed it, and `childId`. The outcome of the result is the status,
the string left in `*name` and the accessible object afterwards, or a fault
when a container is read outside its range; its log holds the indices at
which `mDigits` was read, entered by the reads themselves (`readDigit`). -/
def GetName (calls : ControlCalls) (mCtrl : NumericTextCtrl)
    (ax : NumericTextCtrlAx) (name : String) (childId : Int) :
    DigitLog (wxAccStatus × String × NumericTextCtrlAx) :=
  let mFields := mCtrl.mFields
  let ctrlString := calls.GetString
  let field := calls.GetFocusedField
  if childId = wxACC_SELF ∨ childId < 1 then
    let name := calls.GetName
    let name := if name = "" then calls.GetLabel else name
    pure (wxAccStatus.wxACC_OK, name ++ (" " ++ calls.GetString), ax)
  else if childId = ax.mLastDigit ∧ ctrlString = ax.mLastCtrlString then
    pure (wxAccStatus.wxACC_OK, ax.mCachedName, ax)
  else if ax.mLastField ≠ field then do
    let current ← DigitLog.lift (readAt mFields (field - 1))
    let label := current.label
    let cnt := toInt32 mFields.length
    let decimal := calls.decimal
    let isTime := decide (mCtrl.mType = NumericConverterType.TIME)
    let label ←
      if field > 1 ∧ field = cnt then do
        let before ← DigitLog.lift (readAt mFields (field - 2))
        if before.label = decimal then
          let digits := current.digits
          pure (GetFraction calls.Translation label mCtrl.mFormatStringFraction
            isTime digits)
        else pure label
      else if label = decimal ∧ field = cnt - 1 then do
        let next ← DigitLog.lift (readAt mFields field)
        pure next.label
      else pure label
    let digit ← readDigit mCtrl (childId - 1)
    let ch ← DigitLog.lift (readAt calls.GetString.data digit.pos)
    let name := current.str ++ " " ++ label ++ ", " ++ String.singleton ch
    pure (wxAccStatus.wxACC_OK, name,
      { mLastField := field
        mLastDigit := childId
        mCachedName := name
        mLastCtrlString := ctrlString })
  else if ax.mLastDigit ≠ childId then do
    let digit ← readDigit mCtrl (childId - 1)
    let ch ← DigitLog.lift (readAt calls.GetString.data digit.pos)
    let name := String.singleton ch
    pure (wxAccStatus.wxACC_OK, name,
      { ax with
        mLastDigit := childId
        mCachedName := name
        mLastCtrlString := ctrlString })
  else if field > 0 then do
    let current ← DigitLog.lift (readAt mFields (field - 1))
    let name := current.str
    pure (wxAccStatus.wxACC_OK, name,
      { ax with mCachedName := name, mLastCtrlString := ctrlString })
  else
    pure (wxAccStatus.wxACC_OK, name,
      { ax with mCachedName := name, mLastCtrlString := ctrlString })

end NumericTextCtrlAx

/-! ## Sample inputs -/

/-- A process state whose open registry holds one plugin, `"WAV"`. -/
def sampleProcess : ProcessState where
  registry :=
    { items := [⟨⟨"WAV", fun _ => ⟨"wav", [⟨"mono", ChannelConstraint.fixed 1⟩]⟩⟩, {}⟩]
      closed := false }
  instances := []

/-- A control with auto-positioning whose value string is `04:5` and whose
three digits sit at positions 0, 1 and 3 of it; the focus starts at 7. -/
def sampleCtrl : NumericTextCtrl where
  mAutoPos := true
  mFocusedDigit := 7
  mDigits := [⟨0, 0, 0⟩, ⟨0, 1, 1⟩, ⟨1, 0, 3⟩]
  mValueString := ['0', '4', ':', '5']

/-- A control with auto-positioning whose value string is `00:0` and whose
three digits sit at positions 0, 1 and 3 of it; the focus starts at 0. -/
def zeroCtrl : NumericTextCtrl where
  mAutoPos := true
  mFocusedDigit := 0
  mDigits := [⟨0, 0, 0⟩, ⟨0, 1, 1⟩, ⟨1, 0, 3⟩]
  mValueString := ['0', '0', ':', '0']

/-- A control with two digit boxes. -/
def boxedCtrl : NumericTextCtrl where
  mAutoPos := true
  mFocusedDigit := 0
  mDigits := [⟨0, 0, 0⟩, ⟨0, 1, 1⟩]
  mValueString := ['1', '2']
  mBoxes := [⟨1, 1, 11, 19⟩, ⟨12, 1, 11, 19⟩]

/-- The calls of a control named `"Start"` whose client area starts at screen
position (100, 200) and which sits at (5, 7) in a parent whose client area
starts at (90, 180). -/
def sampleCalls : ControlCalls where
  GetRect := ⟨5, 7, 30, 21⟩
  ClientToScreen := fun p => ⟨p.x + 100, p.y + 200⟩
  ParentClientToScreen := fun p => ⟨p.x + 90, p.y + 180⟩
  GetName := "Start"
  GetLabel := ""
  GetString := "12"
  GetFocusedField := 1
  decimal := "."
  Translation := fun msg => msg

/-- A control with one field `12` of two digits, followed by the label
`seconds`. -/
def fieldCtrl : NumericTextCtrl where
  mAutoPos := true
  mFocusedDigit := 0
  mDigits := [⟨0, 0, 0⟩, ⟨0, 1, 1⟩]
  mValueString := ['1', '2']
  mFields := [⟨2, "seconds", "12"⟩]

/-! ## Theorems -/

/-! ### Export -/

/-- C2, as stated, fails: with a 2-channel input and a format whose only
allowed channel count is 1, an override of `Mono` does not conflict with the
format and is honoured, so the decision is `Mono`, not `FormatDefined`. -/
theorem DecideMode_mono_override_honoured :
    (DecideMode 2 (ChannelConstraint.fixed 1) (some DownMixMode.Mono)
      DownMixMode.Stereo).1 ≠ DownMixMode.FormatDefined := by
  decide

/-- C2, amended: when the format fixes the output channel count at `k`, the
decision is `FormatDefined` when there is no override and for every override
that does not itself ask for exactly `k` channels (with the conflict notice
when the override asks for another count), while an override that asks for
exactly `k` channels is honoured. -/
theorem DecideMode_fixed_format (inputChannelCount k : Nat) (c : ChannelConstraint)
    (userOverride : Option DownMixMode) (defaultMode : DownMixMode)
    (hfix : c.fixedCount = some k) :
    ((∀ mode, userOverride = some mode →
        mode.impliedChannels inputChannelCount ≠ some k) →
      (DecideMode inputChannelCount c userOverride defaultMode).1 =
        DownMixMode.FormatDefined) ∧
    (∀ mode n, userOverride = some mode →
        mode.impliedChannels inputChannelCount = some n → n ≠ k →
      DecideMode inputChannelCount c userOverride defaultMode =
        (DownMixMode.FormatDefined, some Notice.OverrideConflict)) ∧
    (∀ mode, userOverride = some mode →
        mode.impliedChannels inputChannelCount = some k →
      DecideMode inputChannelCount c userOverride defaultMode = (mode, none)) := by
  refine ⟨?_, ?_, ?_⟩
  · intro hconf
    cases userOverride with
    | none => simp [DecideMode, hfix]
    | some mode =>
      have hm := hconf mode rfl
      cases himp : mode.impliedChannels inputChannelCount with
      | none =>
        cases mode <;> simp [DownMixMode.impliedChannels] at himp
        simp [DecideMode, hfix, DownMixMode.impliedChannels]
      | some n =>
        have hne : n ≠ k := by
          intro h
          exact hm (by rw [himp, h])
        simp [DecideMode, hfix, himp, hne]
  · intro mode n ho himp hne
    subst ho
    simp [DecideMode, hfix, himp, hne]
  · intro mode ho himp
    subst ho
    simp [DecideMode, hfix, himp]

/-- C2, amended, at the specification's example: a 2-channel input, a format
whose only allowed channel count is 1 and an override of `Stereo`. -/
theorem DecideMode_fixed_format_witness :
    DecideMode 2 (ChannelConstraint.fixed 1) (some DownMixMode.Stereo)
      DownMixMode.Stereo =
        (DownMixMode.FormatDefined, some Notice.OverrideConflict) :=
  (DecideMode_fixed_format 2 1 (ChannelConstraint.fixed 1)
    (some DownMixMode.Stereo) DownMixMode.Stereo rfl).2.1
      DownMixMode.Stereo 2 rfl rfl (by decide)

/-- The sum of `n` copies of `1 / n` is 1 for positive `n`. -/
theorem sum_replicate_inv (n : Nat) (hn : 1 ≤ n) :
    (List.replicate n (1 / (n : ℚ))).sum = 1 := by
  have hne : (n : ℚ) ≠ 0 := by
    have hpos : n ≠ 0 := by omega
    exact_mod_cast hpos
  rw [List.sum_replicate, nsmul_eq_mul]
  field_simp

/-- C4: for every input channel count `N >= 1` and a format that allows one
output channel, the matrix built for `N` inputs and 1 output is the single
row of `N` weights `1 / N`, and these weights sum to 1. -/
theorem BuildMatrix_collapse_to_one (N : Nat) (allowed : ChannelConstraint)
    (hN : 1 ≤ N) (hallowed : allowed.allows 1 = true) :
    BuildMatrix allowed N 1 = Except.ok [List.replicate N (1 / (N : ℚ))] ∧
      weightSum (List.replicate N (1 / (N : ℚ))) = 1 := by
  refine ⟨?_, sum_replicate_inv N hN⟩
  unfold BuildMatrix
  by_cases h1 : N = 1
  · subst h1
    simp [hallowed, identityMatrix, List.range_succ]
  · have hlt : 1 < N := by omega
    have hne : ¬ (1 = N) := fun h => h1 h.symm
    simp [hallowed, hne, hlt]

/-- C4 at the stereo to mono collapse: the weights are 1/2 and 1/2. -/
theorem BuildMatrix_collapse_to_one_witness :
    BuildMatrix (ChannelConstraint.fixed 1) 2 1 =
        Except.ok [List.replicate 2 (1 / ((2 : Nat) : ℚ))] ∧
      weightSum (List.replicate 2 (1 / ((2 : Nat) : ℚ))) = 1 :=
  BuildMatrix_collapse_to_one 2 (ChannelConstraint.fixed 1) (by decide) (by decide)

/-- Storing a matrix and a channel count does not change what
`CreateMixerSpec` reads: the exported tracks and the chosen constraint. -/
theorem Exporter.CreateMixerSpec_reads (e : Exporter) (spec : Option MixerSpec)
    (m : Nat) :
    ({ e with mMixerSpec := spec, mChannels := m } : Exporter).chosenConstraint =
        e.chosenConstraint ∧
      ({ e with mMixerSpec := spec, mChannels := m } : Exporter).exportedTracks =
        e.exportedTracks :=
  ⟨rfl, rfl⟩

/-- C5: `CreateMixerSpec` is idempotent: called again on the session the
first call left, with nothing else changed, it returns the same outcome (the
same routing matrix, or the same failure) and leaves the same session, the
stored matrix included. -/
theorem CreateMixerSpec_idempotent (e : Exporter) :
    (e.CreateMixerSpec).2.CreateMixerSpec = e.CreateMixerSpec := by
  cases hc : e.chosenConstraint with
  | none => simp [Exporter.CreateMixerSpec, hc]
  | some c =>
    cases hb : BuildMatrix c (Exporter.inputChannelCount e.exportedTracks)
        (Exporter.outputChannels (Exporter.inputChannelCount e.exportedTracks) c
          (DecideMode (Exporter.inputChannelCount e.exportedTracks) c
            e.mProject.userOverride e.mProject.defaultMode).1) with
    | error err =>
      have h1 : e.CreateMixerSpec = (Except.error err, e) := by
        simp [Exporter.CreateMixerSpec, hc, hb]
      rw [h1]
      exact h1
    | ok matrix =>
      have h1 : e.CreateMixerSpec =
          (Except.ok (matrix.map (Exporter.spreadRow e.exportedTracks)),
            { e with
              mMixerSpec := some (matrix.map (Exporter.spreadRow e.exportedTracks))
              mChannels :=
                Exporter.outputChannels (Exporter.inputChannelCount e.exportedTracks) c
                  (DecideMode (Exporter.inputChannelCount e.exportedTracks) c
                    e.mProject.userOverride e.mProject.defaultMode).1 }) := by
        simp [Exporter.CreateMixerSpec, hc, hb]
      rw [h1]
      obtain ⟨hcc, htr⟩ := Exporter.CreateMixerSpec_reads e
        (some (matrix.map (Exporter.spreadRow e.exportedTracks)))
        (Exporter.outputChannels (Exporter.inputChannelCount e.exportedTracks) c
          (DecideMode (Exporter.inputChannelCount e.exportedTracks) c
            e.mProject.userOverride e.mProject.defaultMode).1)
      simp only [Exporter.CreateMixerSpec, hcc, htr, hc, hb]

/-- C7: registration never constructs a plugin instance (the instances
constructed so far are the same after any registration attempt, whatever the
factory), and a registration that succeeds appends to the registry an item
that holds the identifier and the factory itself. -/
theorem RegisteredExportPlugin_stores_factory (p : ProcessState) (id : String)
    (factory : ExportPluginFactory) (placement : Placement) :
    (RegisteredExportPlugin p id factory placement).2.instances = p.instances ∧
    ((RegisteredExportPlugin p id factory placement).1 = Except.ok () →
      (RegisteredExportPlugin p id factory placement).2.registry.items =
        p.registry.items ++ [⟨⟨id, factory⟩, placement⟩]) := by
  unfold RegisteredExportPlugin
  by_cases hclosed : p.registry.closed = true
  · simp [hclosed]
  · by_cases hdup : p.registry.hasIdentifier id = true
    · simp [hclosed, hdup]
    · simp [hclosed, hdup]

/-- C7 on the sample process state: registering `"FLAC"` succeeds, the new
item holds the given factory, and no instance has been constructed. -/
theorem RegisteredExportPlugin_stores_factory_witness :
    (RegisteredExportPlugin sampleProcess "FLAC" (fun _ => ⟨"flac", []⟩) {}).2.instances
        = [] ∧
      (RegisteredExportPlugin sampleProcess "FLAC" (fun _ => ⟨"flac", []⟩) {}).2.registry.items
        = sampleProcess.registry.items ++ [⟨⟨"FLAC", fun _ => ⟨"flac", []⟩⟩, {}⟩] :=
  ⟨(RegisteredExportPlugin_stores_factory sampleProcess "FLAC"
      (fun _ => ⟨"flac", []⟩) {}).1,
    (RegisteredExportPlugin_stores_factory sampleProcess "FLAC"
      (fun _ => ⟨"flac", []⟩) {}).2 (by decide)⟩

/-! ### Playable tracks -/

/-- C8: `PlayableTrack::HandleXMLAttribute` returns true when the attribute is
`"mute"` or `"solo"` and its value yields an integer, and for every other
(attribute, value) pair it returns exactly what the base handler
`AudioTrack::HandleXMLAttribute` returns on the same pair. -/
theorem HandleXMLAttribute_result {A V : Type} (TryGet : V → Option Int)
    (baseHandle : String → V → A → Bool × A) (t : PlayableTrack A)
    (attr : String) (value : V) :
    (PlayableTrack.HandleXMLAttribute TryGet baseHandle t attr value).1 =
      if (attr = "mute" ∨ attr = "solo") ∧ (TryGet value).isSome = true then true
      else (baseHandle attr value t.audio).1 := by
  unfold PlayableTrack.HandleXMLAttribute
  by_cases hm : attr = "mute"
  · subst hm
    cases hv : TryGet value <;> simp [hv]
  · by_cases hs : attr = "solo"
    · subst hs
      cases hv : TryGet value <;> simp [hv]
    · simp [hm, hs]

/-- C9, evaluated: the default index of `TracksBehaviorsSolo` is 0, and index
0 selects the symbol `"Multi"` (shown as "Multi-track") and the value
`SoloBehaviorMulti`; `"Simple"` and `SoloBehaviorSimple` are at index 1. -/
theorem TracksBehaviorsSolo_default :
    TracksBehaviorsSolo.key = "/GUI/Solo" ∧
    TracksBehaviorsSolo.defaultSymbol = 0 ∧
    TracksBehaviorsSolo.Default = some ⟨"Multi", "Multi-track"⟩ ∧
    TracksBehaviorsSolo.DefaultValue = some SoloBehavior.SoloBehaviorMulti ∧
    TracksBehaviorsSolo.symbols.get? 1 = some ⟨"Simple", "Simple"⟩ ∧
    TracksBehaviorsSolo.values.get? 1 = some SoloBehavior.SoloBehaviorSimple := by
  decide

/-! ### The numeric text control -/

/-- The cast `(int)n` is the identity below `2 ^ 31`. -/
theorem toInt32_of_lt (n : Nat) (h : n < 2 ^ 31) : toInt32 n = (n : Int) := by
  unfold toInt32
  have h2 : (n + 2 ^ 31) % 2 ^ 32 = n + 2 ^ 31 := Nat.mod_eq_of_lt (by omega)
  rw [h2]
  push_cast
  ring

/-- The loop of `UpdateAutoFocus`, started at a digit `i` at or left of the
left-most digit `k` whose character is not `'0'`, ends at `k`, as soon as the
fuel covers the digits from `i` to `k`. -/
theorem NumericTextCtrl.UpdateAutoFocusLoop_leftmost (c : NumericTextCtrl) (k : Nat)
    (hsize : c.mDigits.length < 2 ^ 31) (hk : k < c.mDigits.length)
    (hzero : ∀ j : Nat, j < k → c.digitChar (j : Int) = some '0')
    (hnz : ∃ ch, c.digitChar (k : Int) = some ch ∧ ch ≠ '0') :
    ∀ (fuel i : Nat), i ≤ k → k < fuel + i →
      NumericTextCtrl.UpdateAutoFocusLoop c fuel (i : Int) = Except.ok (k : Int) := by
  intro fuel
  induction fuel with
  | zero =>
    intro i hik hlt
    omega
  | succ f ih =>
    intro i hik hlt
    rw [NumericTextCtrl.UpdateAutoFocusLoop, toInt32_of_lt _ hsize]
    by_cases hcond : (i : Int) < (c.mDigits.length : Int) - 1
    · simp only [if_pos hcond]
      rcases Nat.lt_or_ge i k with h | h
      · rw [hzero i h]
        have hrec := ih (i + 1) (by omega) (by omega)
        push_cast at hrec
        simpa using hrec
      · have hik2 : i = k := by omega
        subst hik2
        obtain ⟨ch, hch, hne⟩ := hnz
        rw [hch]
        simp [hne]
    · simp only [if_neg hcond]
      have hik2 : i = k := by omega
      subst hik2
      rfl

/-- C10: with auto-positioning enabled (and fewer than `2 ^ 31` digits),
`UpdateAutoFocus` returns with the focus on the left-most digit whose
character in the value string is not `'0'`: if digit `k` has a character
other than `'0'` and every digit left of it has the character `'0'`, then
`mFocusedDigit` becomes `k` and nothing else changes. In particular, when the
digit list is not empty and every digit is a hyphen, digit 0 is focused. -/
theorem UpdateAutoFocus_leftmost_nonzero (c : NumericTextCtrl)
    (hauto : c.mAutoPos = true) (hsize : c.mDigits.length < 2 ^ 31) :
    (∀ k : Nat, k < c.mDigits.length →
      (∀ j : Nat, j < k → c.digitChar (j : Int) = some '0') →
      (∃ ch, c.digitChar (k : Int) = some ch ∧ ch ≠ '0') →
      c.UpdateAutoFocus = Except.ok { c with mFocusedDigit := (k : Int) }) ∧
    (c.mDigits ≠ [] →
      (∀ j : Nat, j < c.mDigits.length → c.digitChar (j : Int) = some '-') →
      c.UpdateAutoFocus = Except.ok { c with mFocusedDigit := 0 }) := by
  have main : ∀ k : Nat, k < c.mDigits.length →
      (∀ j : Nat, j < k → c.digitChar (j : Int) = some '0') →
      (∃ ch, c.digitChar (k : Int) = some ch ∧ ch ≠ '0') →
      c.UpdateAutoFocus = Except.ok { c with mFocusedDigit := (k : Int) } := by
    intro k hk hzero hnz
    have hloop := NumericTextCtrl.UpdateAutoFocusLoop_leftmost c k hsize hk hzero hnz
      c.mDigits.length 0 (Nat.zero_le k) (by omega)
    unfold NumericTextCtrl.UpdateAutoFocus
    simp only [Nat.cast_zero] at hloop
    simp [hauto, hloop]
  refine ⟨main, ?_⟩
  intro hne hhyphen
  have hpos : 0 < c.mDigits.length := List.length_pos.2 hne
  have h0 := main 0 hpos (fun j hj => absurd hj (Nat.not_lt_zero j))
    ⟨'-', hhyphen 0 hpos, by decide⟩
  simpa using h0

/-- C10 on the sample control, whose three digits read `0`, `4`, `5`: the
focus moves from 7 to digit 1. -/
theorem UpdateAutoFocus_leftmost_nonzero_witness :
    sampleCtrl.UpdateAutoFocus = Except.ok { sampleCtrl with mFocusedDigit := 1 } :=
  (UpdateAutoFocus_leftmost_nonzero sampleCtrl rfl (by decide)).1 1 (by decide)
    (by intro j hj; interval_cases j; decide)
    ⟨'4', by decide, by decide⟩

/-- The loop of `UpdateAutoFocus`, started at a digit `i` of a control whose
digits left of the last one all read `'0'`, ends at the last digit, as soon
as the fuel covers the digits from `i` to the last one. -/
theorem NumericTextCtrl.UpdateAutoFocusLoop_all_zero (c : NumericTextCtrl)
    (hsize : c.mDigits.length < 2 ^ 31)
    (hzero : ∀ j : Nat, j + 1 < c.mDigits.length → c.digitChar (j : Int) = some '0') :
    ∀ (fuel i : Nat), i < c.mDigits.length → c.mDigits.length ≤ fuel + i + 1 →
      NumericTextCtrl.UpdateAutoFocusLoop c fuel (i : Int) =
        Except.ok (((c.mDigits.length - 1 : Nat) : Int)) := by
  intro fuel
  induction fuel with
  | zero =>
    intro i hi hfuel
    have hlast : i = c.mDigits.length - 1 := by omega
    have hcond : ¬ ((i : Int) < (c.mDigits.length : Int) - 1) := by omega
    rw [NumericTextCtrl.UpdateAutoFocusLoop, toInt32_of_lt _ hsize]
    simp only [if_neg hcond]
    rw [hlast]
  | succ f ih =>
    intro i hi hfuel
    rw [NumericTextCtrl.UpdateAutoFocusLoop, toInt32_of_lt _ hsize]
    by_cases hcond : (i : Int) < (c.mDigits.length : Int) - 1
    · simp only [if_pos hcond]
      rw [hzero i (by omega)]
      have hrec := ih (i + 1) (by omega) (by omega)
      push_cast at hrec
      simpa using hrec
    · simp only [if_neg hcond]
      have hlast : i = c.mDigits.length - 1 := by omega
      rw [← hlast]

/-- C11: with auto-positioning enabled and a non-empty digit list (of fewer
than `2 ^ 31` digits) in which every digit character is `'0'`,
`UpdateAutoFocus` returns with the focus on the right-most digit, index
`size - 1`, and changes nothing else. -/
theorem UpdateAutoFocus_all_zero (c : NumericTextCtrl)
    (hauto : c.mAutoPos = true) (hsize : c.mDigits.length < 2 ^ 31)
    (hne : c.mDigits ≠ [])
    (hzero : ∀ j : Nat, j < c.mDigits.length → c.digitChar (j : Int) = some '0') :
    c.UpdateAutoFocus =
      Except.ok { c with mFocusedDigit := (c.mDigits.length : Int) - 1 } := by
  have hpos : 0 < c.mDigits.length := List.length_pos.2 hne
  have hloop := NumericTextCtrl.UpdateAutoFocusLoop_all_zero c hsize
    (fun j hj => hzero j (by omega)) c.mDigits.length 0 hpos (by omega)
  have hcast : ((c.mDigits.length - 1 : Nat) : Int) = (c.mDigits.length : Int) - 1 := by
    omega
  rw [hcast] at hloop
  unfold NumericTextCtrl.UpdateAutoFocus
  simp only [Nat.cast_zero] at hloop
  simp [hauto, hloop]

/-- C11 on a control whose three digits all read `0`: the focus moves from
digit 0 to digit 2, the right-most one. -/
theorem UpdateAutoFocus_all_zero_witness :
    zeroCtrl.UpdateAutoFocus = Except.ok { zeroCtrl with mFocusedDigit := 2 } :=
  UpdateAutoFocus_all_zero zeroCtrl rfl (by decide) (by decide)
    (by intro j hj; have hj3 : j < 3 := hj; interval_cases j <;> decide)

/-- C12, as stated, fails: for a control whose client area does not start at
the origin of the screen, `GetLocation` with `elementId = 1` does not return
the box of digit 0 as `GetBox` gives it, but that box moved to screen
coordinates; likewise `elementId = 0` does not return the rectangle of the
control as `GetRect` gives it. -/
theorem GetLocation_not_the_client_box :
    (NumericTextCtrlAx.GetLocation sampleCalls boxedCtrl 1).2 ≠ boxedCtrl.GetBox 0 ∧
    (NumericTextCtrlAx.GetLocation sampleCalls boxedCtrl 0).2 ≠ sampleCalls.GetRect := by
  decide

/-- C12, amended: `GetLocation` always returns with `wxACC_OK`; for every
`elementId > 0` the rectangle is the box of digit `elementId - 1` as given by
`GetBox` with its position converted by the control's `ClientToScreen`, and
for every `elementId <= 0` it is the rectangle of the whole control with its
position converted by the parent's `ClientToScreen`; `GetBox i` is the `i`-th
box exactly when `i` is less than the number of boxes and the default
(empty) rectangle otherwise. -/
theorem GetLocation_total_in_range (calls : ControlCalls) (mCtrl : NumericTextCtrl)
    (elementId : Int) :
    (0 < elementId →
      NumericTextCtrlAx.GetLocation calls mCtrl elementId =
        (wxAccStatus.wxACC_OK,
          (mCtrl.GetBox (elementId - 1).toNat).SetPosition
            (calls.ClientToScreen (mCtrl.GetBox (elementId - 1).toNat).GetPosition))) ∧
    (elementId ≤ 0 →
      NumericTextCtrlAx.GetLocation calls mCtrl elementId =
        (wxAccStatus.wxACC_OK,
          calls.GetRect.SetPosition
            (calls.ParentClientToScreen calls.GetRect.GetPosition))) ∧
    (∀ (i : Nat) (h : i < mCtrl.mBoxes.length),
      mCtrl.GetBox i = mCtrl.mBoxes.get ⟨i, h⟩) ∧
    (∀ i : Nat, mCtrl.mBoxes.length ≤ i → mCtrl.GetBox i = {}) := by
  refine ⟨?_, ?_, ?_, ?_⟩
  · intro hpos
    have hcond : elementId ≠ wxACC_SELF ∧ elementId > 0 := by
      constructor
      · unfold wxACC_SELF
        omega
      · exact hpos
    unfold NumericTextCtrlAx.GetLocation
    simp only [if_pos hcond]
  · intro hle
    have hcond : ¬ (elementId ≠ wxACC_SELF ∧ elementId > 0) := by
      intro h
      omega
    unfold NumericTextCtrlAx.GetLocation
    simp only [if_neg hcond]
  · intro i h
    unfold NumericTextCtrl.GetBox
    simp only [dif_pos h]
  · intro i h
    have hnot : ¬ i < mCtrl.mBoxes.length := by omega
    unfold NumericTextCtrl.GetBox
    simp only [dif_neg hnot]

/-- C12, amended, on the sample control with two boxes: element 2 is the
second box moved by (100, 200), element 3 has no digit and gives the empty
rectangle at (100, 200), element 0 gives the control rectangle moved by
(90, 180). -/
theorem GetLocation_total_in_range_witness :
    NumericTextCtrlAx.GetLocation sampleCalls boxedCtrl 2 =
        (wxAccStatus.wxACC_OK, ⟨112, 201, 11, 19⟩) ∧
      NumericTextCtrlAx.GetLocation sampleCalls boxedCtrl 3 =
        (wxAccStatus.wxACC_OK, ⟨100, 200, 0, 0⟩) ∧
      NumericTextCtrlAx.GetLocation sampleCalls boxedCtrl 0 =
        (wxAccStatus.wxACC_OK, ⟨95, 187, 30, 21⟩) :=
  ⟨(GetLocation_total_in_range sampleCalls boxedCtrl 2).1 (by decide),
    (GetLocation_total_in_range sampleCalls boxedCtrl 3).1 (by decide),
    (GetLocation_total_in_range sampleCalls boxedCtrl 0).2.1 (by decide)⟩

/-- A step that yields a value reads nothing. -/
theorem DigitLog.reads_pure {α : Type} (a : α) (k : Int) :
    ∀ i ∈ (pure a : NumericTextCtrlAx.DigitLog α).reads, i = k := by
  intro i hi
  cases hi

/-- A read of another container reads nothing of `mDigits`. -/
theorem DigitLog.reads_lift {α : Type} (r : Except Fault α) (k : Int) :
    ∀ i ∈ (NumericTextCtrlAx.DigitLog.lift r).reads, i = k := by
  intro i hi
  cases hi

/-- The read `mDigits[k]` reads `mDigits` at index `k` only. -/
theorem DigitLog.reads_readDigit (mCtrl : NumericTextCtrl) (k : Int) :
    ∀ i ∈ (NumericTextCtrlAx.readDigit mCtrl k).reads, i = k := by
  intro i hi
  simpa [NumericTextCtrlAx.readDigit] using hi

/-- Two steps in sequence that each read `mDigits` at index `k` only read it
at index `k` only. -/
theorem DigitLog.reads_bind {α β : Type} (x : NumericTextCtrlAx.DigitLog α)
    (f : α → NumericTextCtrlAx.DigitLog β) (k : Int)
    (hx : ∀ i ∈ x.reads, i = k) (hf : ∀ a, ∀ i ∈ (f a).reads, i = k) :
    ∀ i ∈ (x >>= f).reads, i = k := by
  intro i hi
  change i ∈ (NumericTextCtrlAx.DigitLog.andThen x f).reads at hi
  unfold NumericTextCtrlAx.DigitLog.andThen at hi
  cases hout : x.outcome with
  | error e =>
    rw [hout] at hi
    exact hx i hi
  | ok a =>
    rw [hout] at hi
    rcases List.mem_append.1 hi with h | h
    · exact hx i h
    · exact hf a i h

/-- Every read of `mDigits` in `GetName` is at index `childId - 1`. -/
theorem NumericTextCtrlAx.GetName_reads (calls : ControlCalls)
    (mCtrl : NumericTextCtrl) (ax : NumericTextCtrlAx) (name : String)
    (childId : Int) :
    ∀ i ∈ (NumericTextCtrlAx.GetName calls mCtrl ax name childId).reads,
      i = childId - 1 := by
  unfold NumericTextCtrlAx.GetName
  dsimp only
  split_ifs
  repeat
    any_goals first
      | with_reducible exact DigitLog.reads_pure _ _
      | with_reducible exact DigitLog.reads_lift _ _
      | with_reducible exact DigitLog.reads_readDigit _ _
      | with_reducible refine DigitLog.reads_bind _ _ _ ?_ (fun _ => ?_)
      | split_ifs

/-- The outcome and the reads of `GetName` depend on the digit list only
through its element at index `childId - 1`. -/
theorem NumericTextCtrlAx.GetName_digits_only_at (calls : ControlCalls)
    (mCtrl : NumericTextCtrl) (ax : NumericTextCtrlAx) (name : String)
    (childId : Int) (digits : List DigitInfo)
    (h : NumericTextCtrl.at? digits (childId - 1) =
      NumericTextCtrl.at? mCtrl.mDigits (childId - 1)) :
    NumericTextCtrlAx.GetName calls { mCtrl with mDigits := digits } ax name childId =
      NumericTextCtrlAx.GetName calls mCtrl ax name childId := by
  simp only [NumericTextCtrlAx.GetName, NumericTextCtrlAx.readDigit,
    NumericTextCtrlAx.readAt, h]

/-- C13: `GetName` never reads the digit list at a negative index. Every
`childId < 1`, and `wxACC_SELF` among them, takes the whole-control branch:
the call succeeds with `wxACC_OK`, the name is the name of the control, or
its label when the name is empty, followed by a space and the full value
string, the accessible object is unchanged and `mDigits` is not read. For
every `childId`, each index at which a read of `mDigits` happens is
`childId - 1` with `childId >= 1`, hence not negative, and the result
depends on the digit list only through its element at that index. -/
theorem GetName_digit_index_not_negative (calls : ControlCalls)
    (mCtrl : NumericTextCtrl) (ax : NumericTextCtrlAx) (name : String)
    (childId : Int) :
    (childId < 1 →
      NumericTextCtrlAx.GetName calls mCtrl ax name childId =
        ⟨Except.ok (wxAccStatus.wxACC_OK,
          (if calls.GetName = "" then calls.GetLabel else calls.GetName) ++
            (" " ++ calls.GetString), ax), []⟩) ∧
    NumericTextCtrlAx.GetName calls mCtrl ax name wxACC_SELF =
      ⟨Except.ok (wxAccStatus.wxACC_OK,
        (if calls.GetName = "" then calls.GetLabel else calls.GetName) ++
          (" " ++ calls.GetString), ax), []⟩ ∧
    (∀ i ∈ (NumericTextCtrlAx.GetName calls mCtrl ax name childId).reads,
      i = childId - 1 ∧ 1 ≤ childId ∧ 0 ≤ i) ∧
    (∀ digits : List DigitInfo,
      NumericTextCtrl.at? digits (childId - 1) =
        NumericTextCtrl.at? mCtrl.mDigits (childId - 1) →
      NumericTextCtrlAx.GetName calls { mCtrl with mDigits := digits } ax name childId =
        NumericTextCtrlAx.GetName calls mCtrl ax name childId) := by
  have whole : ∀ id : Int, id < 1 →
      NumericTextCtrlAx.GetName calls mCtrl ax name id =
        ⟨Except.ok (wxAccStatus.wxACC_OK,
          (if calls.GetName = "" then calls.GetLabel else calls.GetName) ++
            (" " ++ calls.GetString), ax), []⟩ := by
    intro id hid
    have hcond : id = wxACC_SELF ∨ id < 1 := Or.inr hid
    unfold NumericTextCtrlAx.GetName
    simp only [if_pos hcond]
    rfl
  refine ⟨whole childId, whole wxACC_SELF (by decide), ?_,
    fun digits h =>
      NumericTextCtrlAx.GetName_digits_only_at calls mCtrl ax name childId digits h⟩
  intro i hi
  have hindex := NumericTextCtrlAx.GetName_reads calls mCtrl ax name childId i hi
  have hge : 1 ≤ childId := by
    by_contra hlt
    rw [whole childId (by omega)] at hi
    cases hi
  exact ⟨hindex, hge, by omega⟩

/-- C13 on the sample control: child 0 gives the name and the value string
and reads no digit; child 1 reads the digit list at index 0 only and gives
the field, its label and the digit; child 3, which has no digit, reads at
index 2 and faults there. -/
theorem GetName_digit_index_not_negative_witness :
    NumericTextCtrlAx.GetName sampleCalls fieldCtrl {} "" 0 =
        ⟨Except.ok (wxAccStatus.wxACC_OK, "Start 12", {}), []⟩ ∧
      (∀ i ∈ (NumericTextCtrlAx.GetName sampleCalls fieldCtrl {} "" 1).reads,
        i = 1 - 1 ∧ (1 : Int) ≤ 1 ∧ 0 ≤ i) ∧
      (NumericTextCtrlAx.GetName sampleCalls fieldCtrl {} "" 1).reads = [0] ∧
      (NumericTextCtrlAx.GetName sampleCalls fieldCtrl {} "" 1).outcome =
        Except.ok (wxAccStatus.wxACC_OK, "12 seconds, 1",
          ⟨1, 1, "12 seconds, 1", "12"⟩) ∧
      (NumericTextCtrlAx.GetName sampleCalls fieldCtrl {} "" 3).reads = [2] :=
  ⟨(GetName_digit_index_not_negative sampleCalls fieldCtrl {} "" 0).1 (by decide),
    (GetName_digit_index_not_negative sampleCalls fieldCtrl {} "" 1).2.2.1,
    by decide, by decide, by decide⟩
